import Mathlib

/-!
Verification development for the sandboxed code-execution service of the
JavaScriptTrainer repository.

The definitions below are a shallow embedding of the server routes in
src/unnamed/part_012 (the execute route: source normalizer, sandbox console
and timer shims, vm2 invocation, result assembly, persistence calls) and
src/unnamed/part_011 (the PostgresStorage collaborator and the challenge
validation route).  Values crossing the sandbox boundary are modelled by the
inductive JSVal; JavaScript serialization (JSON.stringify, String coercion)
is modelled by structurally recursive functions so that everything computes.
-/

/- ## JavaScript values -/

mutual

/-- A JavaScript value as observed at the sandbox boundary: the argument of a
console-shim call, the value returned by vm2.run, or a test-case payload.
Numbers are modelled as integers (the fragment the claims exercise); arrays
and objects carry their own spine types so that all recursion is structural. -/
inductive JSVal where
  | undef
  | null
  | bool (b : Bool)
  | num (n : Int)
  | str (s : String)
  | arr (elems : JSList)
  | obj (fields : JSFields)

/-- Spine of a JavaScript array value. -/
inductive JSList where
  | nil
  | cons (head : JSVal) (tail : JSList)

/-- Spine of a JavaScript object value: ordered key/value fields. -/
inductive JSFields where
  | nil
  | cons (key : String) (value : JSVal) (tail : JSFields)

end

/- ## String helpers

The route code uses the JavaScript string primitives split, trim,
startsWith, endsWith and join.  They are re-implemented here over character
lists so that every definition reduces inside the kernel. -/

/-- Whitespace recognized by the trim model (the ASCII part of the
JavaScript trim semantics). -/
def isWS (c : Char) : Bool :=
  c = ' ' || c = '\t' || c = '\n' || c = '\r'

/-- Model of the JavaScript String.prototype.trim. -/
def jsTrim (s : String) : String :=
  String.mk (((s.data.dropWhile isWS).reverse.dropWhile isWS).reverse)

/-- Split a character list at every occurrence of the separator, keeping
empty segments, as the JavaScript split does. -/
def splitChar (sep : Char) : List Char → List (List Char)
  | [] => [[]]
  | c :: rest =>
    match splitChar sep rest with
    | [] => if c = sep then [[], []] else [[c]]
    | g :: gs => if c = sep then [] :: g :: gs else (c :: g) :: gs

/-- Model of the JavaScript split on a newline character. -/
def jsSplitLines (s : String) : List String :=
  (splitChar '\n' s.data).map String.mk

/-- Model of the JavaScript String.prototype.startsWith. -/
def strStarts (s p : String) : Bool :=
  p.data.isPrefixOf s.data

/-- Model of the JavaScript String.prototype.endsWith. -/
def strEnds (s p : String) : Bool :=
  p.data.reverse.isPrefixOf s.data.reverse

/-- Model of the JavaScript Array.prototype.join with a separator string. -/
def joinWith (sep : String) : List String → String
  | [] => ""
  | [x] => x
  | x :: y :: xs => x ++ sep ++ joinWith sep (y :: xs)

/- ## JSON serialization -/

/-- Lower-case hexadecimal digit. -/
def hexDigitChar (n : Nat) : Char :=
  if n < 10 then Char.ofNat (48 + n) else Char.ofNat (87 + n)

/-- Four-digit hexadecimal rendering used in JSON unicode escapes. -/
def hex4 (n : Nat) : String :=
  String.mk [hexDigitChar (n / 4096 % 16), hexDigitChar (n / 256 % 16),
             hexDigitChar (n / 16 % 16), hexDigitChar (n % 16)]

/-- JSON escaping of one character inside a quoted string. -/
def jsonEscapeChar (c : Char) : String :=
  if c = '"' then "\\\""
  else if c = '\\' then "\\\\"
  else if c = '\n' then "\\n"
  else if c = '\r' then "\\r"
  else if c = '\t' then "\\t"
  else if c = '\x08' then "\\b"
  else if c = '\x0c' then "\\f"
  else if c.toNat < 32 then "\\u" ++ hex4 c.toNat
  else String.mk [c]

/-- JSON quoted form of a string. -/
def jsonQuote (s : String) : String :=
  "\"" ++ String.join (s.data.map jsonEscapeChar) ++ "\""

mutual

/-- Model of JSON.stringify(v) with no indentation, as used by the challenge
validation comparison.  Returns none where JavaScript returns the value
undefined (stringifying undefined itself). -/
def jsonStrC : JSVal → Option String
  | .undef => none
  | .null => some "null"
  | .bool b => some (if b then "true" else "false")
  | .num n => some (toString n)
  | .str s => some (jsonQuote s)
  | .arr xs => some ("[" ++ joinWith "," (jsonListC xs) ++ "]")
  | .obj fs => some ("\x7b" ++ joinWith "," (jsonFieldsC fs) ++ "\x7d")

/-- Array elements under compact JSON.stringify; undefined renders as null. -/
def jsonListC : JSList → List String
  | .nil => []
  | .cons x xs => ((jsonStrC x).getD "null") :: jsonListC xs

/-- Object fields under compact JSON.stringify; fields whose value does not
serialize are dropped. -/
def jsonFieldsC : JSFields → List String
  | .nil => []
  | .cons k v fs =>
    match jsonStrC v with
    | none => jsonFieldsC fs
    | some sv => (jsonQuote k ++ ":" ++ sv) :: jsonFieldsC fs

end

/-- Indentation of the pretty serializer: two spaces per depth level. -/
def indentStr (d : Nat) : String :=
  String.mk (List.replicate (2 * d) ' ')

mutual

/-- Model of JSON.stringify(v, null, 2), the two-space pretty form used by
the console shims when rendering objects; d is the current depth. -/
def jsonStrP : JSVal → Nat → Option String
  | .undef, _ => none
  | .null, _ => some "null"
  | .bool b, _ => some (if b then "true" else "false")
  | .num n, _ => some (toString n)
  | .str s, _ => some (jsonQuote s)
  | .arr xs, d =>
    let items := jsonListP xs (d + 1)
    some (if items.isEmpty then "[]"
      else "[\n" ++ joinWith ",\n" (items.map (fun s => indentStr (d + 1) ++ s)) ++
           "\n" ++ indentStr d ++ "]")
  | .obj fs, d =>
    let items := jsonFieldsP fs (d + 1)
    some (if items.isEmpty then "\x7b\x7d"
      else "\x7b\n" ++ joinWith ",\n" (items.map (fun s => indentStr (d + 1) ++ s)) ++
           "\n" ++ indentStr d ++ "\x7d")

/-- Array elements of the pretty serializer. -/
def jsonListP : JSList → Nat → List String
  | .nil, _ => []
  | .cons x xs, d => ((jsonStrP x d).getD "null") :: jsonListP xs d

/-- Object fields of the pretty serializer. -/
def jsonFieldsP : JSFields → Nat → List String
  | .nil, _ => []
  | .cons k v fs, d =>
    match jsonStrP v d with
    | none => jsonFieldsP fs d
    | some sv => (jsonQuote k ++ ": " ++ sv) :: jsonFieldsP fs d

end

mutual

/-- Model of the JavaScript String(v) coercion applied by the console shims
to non-object arguments. -/
def jsToString : JSVal → String
  | .undef => "undefined"
  | .null => "null"
  | .bool b => if b then "true" else "false"
  | .num n => toString n
  | .str s => s
  | .arr xs => joinWith "," (jsArrStrings xs)
  | .obj _ => "[object Object]"

/-- Elements of the default array toString; null and undefined render empty. -/
def jsArrStrings : JSList → List String
  | .nil => []
  | .cons x xs =>
    (match x with
     | .undef => ""
     | .null => ""
     | v => jsToString v) :: jsArrStrings xs

end

/-- The JavaScript typeof test used by the shims: typeof v equals the string
object exactly for null, arrays and plain objects among modelled values. -/
def jsTypeofObject : JSVal → Bool
  | .null => true
  | .arr _ => true
  | .obj _ => true
  | _ => false

/-- Rendering of one console argument, from part_012 lines 365 to 367:
objects through JSON.stringify(arg, null, 2), everything else through
String(arg). -/
def renderArg (v : JSVal) : String :=
  if jsTypeofObject v then (jsonStrP v 0).getD "undefined" else jsToString v

/-- Rendering of a console argument list: rendered pieces joined by one
space, as in args.map(...).join(...) of part_012. -/
def renderArgs (args : List JSVal) : String :=
  joinWith " " (args.map renderArg)

/-- Rendering of the single console.table argument, part_012 lines 420 to
422: JSON.stringify(data, null, 2) inside a template literal. -/
def tableContent (data : JSVal) : String :=
  (jsonStrP data 0).getD "undefined"

/- ## Console capture and persistence payloads -/

/-- One invocation of the sandbox console shim, identified by the method the
sandboxed script called and its arguments. -/
inductive ConsoleCall where
  | log (args : List JSVal)
  | error (args : List JSVal)
  | warn (args : List JSVal)
  | info (args : List JSVal)
  | table (data : JSVal)

/-- The four capture arrays of the execute route (part_012 lines 356 to
359). -/
structure Capture where
  logs : List String
  errors : List String
  warnings : List String
  infos : List String

/-- The empty capture state declared at the start of each request. -/
def Capture.init : Capture := ⟨[], [], [], []⟩

/-- One row of the console_entries persistence payload, the argument the
shims pass to storage.createConsoleEntry: snippetId, type and content
(shared/schema.ts insertConsoleEntrySchema). -/
structure EntryRecord where
  snippetId : Int
  type : String
  content : String
deriving DecidableEq, Repr

/-- A call made to the persistence collaborator by the execute route. -/
inductive StorageCall where
  | clear (snippetId : Int)
  | append (entry : EntryRecord)
deriving DecidableEq, Repr

/-- The persistence payload produced by one guarded createConsoleEntry call:
the shims run it only when snippetId is truthy, which for the modelled
number-or-absent snippetId means present and nonzero. -/
def persistOf (sid : Option Int) (ty content : String) : List EntryRecord :=
  match sid with
  | some n => if n != 0 then [⟨n, ty, content⟩] else []
  | none => []

/-- One step of the execute-route console shim (part_012 lines 362 to 431):
render the arguments, push the content onto the matching capture array, and
issue a guarded persistence payload.  console.table pushes onto logs with a
Table prefix and persists with type log. -/
def shimStep (sid : Option Int) (st : Capture × List EntryRecord) :
    ConsoleCall → Capture × List EntryRecord
  | .log args =>
    let content := renderArgs args
    ({ st.1 with logs := st.1.logs ++ [content] }, st.2 ++ persistOf sid "log" content)
  | .error args =>
    let content := renderArgs args
    ({ st.1 with errors := st.1.errors ++ [content] }, st.2 ++ persistOf sid "error" content)
  | .warn args =>
    let content := renderArgs args
    ({ st.1 with warnings := st.1.warnings ++ [content] }, st.2 ++ persistOf sid "warn" content)
  | .info args =>
    let content := renderArgs args
    ({ st.1 with infos := st.1.infos ++ [content] }, st.2 ++ persistOf sid "info" content)
  | .table data =>
    let content := "Table: " ++ tableContent data
    ({ st.1 with logs := st.1.logs ++ [content] }, st.2 ++ persistOf sid "log" content)

/-- Folding a sequence of console-shim calls over a starting state. -/
def runConsoleFrom (sid : Option Int) (st : Capture × List EntryRecord)
    (calls : List ConsoleCall) : Capture × List EntryRecord :=
  calls.foldl (shimStep sid) st

/-- The capture state and persistence payloads after the console calls of
one run, starting from the fresh per-request state. -/
def runConsole (sid : Option Int) (calls : List ConsoleCall) :
    Capture × List EntryRecord :=
  runConsoleFrom sid (Capture.init, []) calls

/-- Classification of a call into the logs array together with its rendered
content; console.log entries and console.table entries both land there. -/
def logRender : ConsoleCall → Option String
  | .log args => some (renderArgs args)
  | .table data => some ("Table: " ++ tableContent data)
  | _ => none

/-- Classification of a call into the errors array. -/
def errorRender : ConsoleCall → Option String
  | .error args => some (renderArgs args)
  | _ => none

/-- Classification of a call into the warnings array. -/
def warnRender : ConsoleCall → Option String
  | .warn args => some (renderArgs args)
  | _ => none

/-- Classification of a call into the infos array. -/
def infoRender : ConsoleCall → Option String
  | .info args => some (renderArgs args)
  | _ => none

/-- The persistence payloads of a single console call. -/
def persistCallOf (sid : Option Int) : ConsoleCall → List EntryRecord
  | .log args => persistOf sid "log" (renderArgs args)
  | .error args => persistOf sid "error" (renderArgs args)
  | .warn args => persistOf sid "warn" (renderArgs args)
  | .info args => persistOf sid "info" (renderArgs args)
  | .table data => persistOf sid "log" ("Table: " ++ tableContent data)

/- ## Source normalizer (part_012 lines 338 to 349) -/

/-- Per-line step of the normalizer: trim the line; keep it as is when the
trimmed line is empty, starts a line or block comment, or already ends with
a block-comment close or one of the safe terminators, in the exact order of
the source condition; otherwise append a semicolon to the trimmed line. -/
def normalizeLine (line : String) : String :=
  let t := jsTrim line
  if t == "" || strStarts t "//" || strStarts t "/*" || strEnds t "*/" ||
     strEnds t ";" || strEnds t "\x7b" || strEnds t "\x7d" ||
     strEnds t ":" || strEnds t "," then t
  else t ++ ";"

/-- The whole normalizer: split on newlines, normalize each physical line,
join with newlines. -/
def normalizeCode (code : String) : String :=
  joinWith "\n" ((jsSplitLines code).map normalizeLine)

/-- Modelled from the claim wording: a trimmed line is safe when it is
blank, a comment-only opener, or ends with a block-comment close or one of
the terminators semicolon, open brace, close brace, colon, comma. -/
def specSafeTrimmed (t : String) : Bool :=
  t == "" || strStarts t "//" || strStarts t "/*" || strEnds t "*/" ||
  strEnds t ";" || strEnds t "\x7b" || strEnds t "\x7d" ||
  strEnds t ":" || strEnds t ","

/- ## The execute route (part_012 lines 328 to 505) -/

/-- A JavaScript error object as seen by a catch handler: name, message and
stack, each possibly absent, with absence modelled by the empty string or
none.  vm2 reports a deadline overrun by throwing such an object; the route
receives only the object itself. -/
structure JsError where
  name : String
  message : String
  stack : Option String
deriving DecidableEq, Repr

/-- The error value the route builds in its catch block (part_012 lines 479
to 483): name and message with fallbacks for falsy values, raw stack. -/
structure ErrObj where
  name : String
  message : String
  stack : Option String
deriving DecidableEq, Repr

/-- Translation of the catch block of the execute route. -/
def buildErrObj (e : JsError) : ErrObj :=
  { name := if e.name == "" then "Error" else e.name,
    message := if e.message == "" then "Unknown error" else e.message,
    stack := e.stack }

/-- Outcome of the vm2.run call: a produced value, or a thrown JsError.  The
timedOut flag is ghost provenance recording whether vm2 raised the error
because the wall-clock deadline elapsed; the catch block of the route
receives only the error object, so no definition below may depend on the
flag. -/
inductive Vm2Outcome where
  | value (v : JSVal)
  | thrown (timedOut : Bool) (e : JsError)

/-- Observable behavior of one sandboxed evaluation: the console-shim calls
it performed during the synchronous run, in order, and how vm2.run ended.
This abstracts vm2.run applied to the normalized source. -/
structure ScriptRun where
  calls : List ConsoleCall
  outcome : Vm2Outcome

/-- Failure behavior of the persistence collaborator during one request:
whether the database delete inside clearConsoleEntries raises, and whether
the inserts behind createConsoleEntry reject.  clearConsoleEntries catches
its own error and returns false (part_011 lines 631 to 641); the
createConsoleEntry promises are never awaited by the execute route. -/
structure StorageBehavior where
  clearFails : Bool
  appendFails : Bool
deriving DecidableEq, Repr

/-- A fully functioning persistence collaborator. -/
def sbOk : StorageBehavior := ⟨false, false⟩

/-- Effect of a successful clearConsoleEntries on the console_entries rows:
delete every row whose snippetId matches (part_011 lines 631 to 641). -/
def clearFor (n : Int) (rows : List EntryRecord) : List EntryRecord :=
  rows.filter (fun r => !(r.snippetId == n))

/-- The guarded createConsoleEntry payload issued after the run: an info
entry recording the elapsed time on success (part_012 lines 470 to 476), an
error entry built from the raw error fields on a throw (lines 486 to 492). -/
def postRunPayload (sid : Option Int) (elapsed : Nat) : Vm2Outcome → List EntryRecord
  | .value _ =>
    persistOf sid "info" ("// Code execution completed in " ++ toString elapsed ++ "ms")
  | .thrown _ e =>
    persistOf sid "error" (e.name ++ ": " ++ e.message)

/-- The result field of the response: the produced value, with undefined
reported as null, and null whenever the run threw, since the result variable
is never assigned in that case (part_012 line 497). -/
def resultOf : Vm2Outcome → JSVal
  | .value .undef => .null
  | .value v => v
  | .thrown _ _ => .null

/-- The error field of the response (part_012 line 502). -/
def errorOf : Vm2Outcome → Option ErrObj
  | .value _ => none
  | .thrown _ e => some (buildErrObj e)

/-- The JSON body the execute route returns (part_012 lines 496 to 504). -/
structure ExecResponse where
  result : JSVal
  logs : List String
  errors : List String
  warnings : List String
  infos : List String
  error : Option ErrObj
  executionTime : Nat

/-- Everything observable about one execute request past the request guard:
the response body, the console_entries rows after the request, and the
sequence of persistence-collaborator calls that were issued. -/
structure ExecEffects where
  resp : ExecResponse
  db : List EntryRecord
  trace : List StorageCall

/-- The execute route past its code-type guard (part_012 lines 335 to 504):
clear previous entries when snippetId is truthy, run the script against the
console shim, then assemble the response and the persistence effects.
Failed deletes are swallowed inside clearConsoleEntries and leave the rows
in place; failed inserts lose the row but, being fire-and-forget, touch
nothing else. -/
def executeCore (sid : Option Int) (run : ScriptRun) (db : List EntryRecord)
    (elapsed : Nat) (sb : StorageBehavior) : ExecEffects :=
  let clearedDb : List EntryRecord :=
    match sid with
    | some n => if n != 0 then (if sb.clearFails then db else clearFor n db) else db
    | none => db
  let clearTrace : List StorageCall :=
    match sid with
    | some n => if n != 0 then [StorageCall.clear n] else []
    | none => []
  let st := runConsole sid run.calls
  let allPayloads := st.2 ++ postRunPayload sid elapsed run.outcome
  { resp := { result := resultOf run.outcome,
              logs := st.1.logs,
              errors := st.1.errors,
              warnings := st.1.warnings,
              infos := st.1.infos,
              error := errorOf run.outcome,
              executionTime := elapsed },
    db := clearedDb ++ (if sb.appendFails then [] else allPayloads),
    trace := clearTrace ++ allPayloads.map StorageCall.append }

/-- Result of the whole route handler: a 400 for a non-string code field, or
the assembled execution effects. -/
inductive HandlerResult where
  | badRequest (message : String)
  | ok (eff : ExecEffects)

/-- The execute route including its request guard (part_012 lines 328 to
333): only a non-string code field is rejected; the script behavior stands
for vm2.run applied to normalizeCode of the submitted string. -/
def executeHandler (code : JSVal) (sid : Option Int) (run : ScriptRun)
    (db : List EntryRecord) (elapsed : Nat) (sb : StorageBehavior) : HandlerResult :=
  match code with
  | .str _ => .ok (executeCore sid run db elapsed sb)
  | _ => .badRequest "Code must be a string"

/-- Whether the route answered with the 400 guard. -/
def HandlerResult.isBad : HandlerResult → Bool
  | .badRequest _ => true
  | .ok _ => false

/-- The response body of the route, when one was produced. -/
def HandlerResult.response : HandlerResult → Option ExecResponse
  | .badRequest _ => none
  | .ok eff => some eff.resp

/-- Whether a JavaScript value is a string, the typeof guard of the route. -/
def JSVal.isString : JSVal → Bool
  | .str _ => true
  | _ => false

/- ## Timer shim (part_012 lines 433 to 451) -/

/-- The vm2 timeout option of the execute route: 5000 milliseconds. -/
def engineTimeoutMs : Nat := 5000

/-- The cap applied by the timer shim to requested delays. -/
def timerMaxDelayMs : Nat := 5000

/-- Delay clamping of the timer shim: delays above the cap become the cap. -/
def clampDelay (d : Nat) : Nat :=
  if d > timerMaxDelayMs then timerMaxDelayMs else d

/-- Observable behavior of one scheduled callback when it runs: its
console-shim calls in order, then optionally a thrown error rendered by
toString. -/
structure TimerBody where
  calls : List ConsoleCall
  throwsMsg : Option String

/-- One sandbox.setTimeout registration: the host-clock instant of the call
(the run starts at instant 0), the requested delay, and the callback
behavior. -/
structure TimerReq where
  scheduledAt : Nat
  requestedDelay : Nat
  body : TimerBody

/-- The host-clock instant at which the host timer fires the callback: the
shim clamps the delay and hands the callback to the ambient setTimeout with
no other condition. -/
def fireAt (tr : TimerReq) : Nat :=
  tr.scheduledAt + clampDelay tr.requestedDelay

/-- Effect of the host timer firing a registered callback (part_012 lines
435 to 450): the callback runs against the same console shim and capture
arrays; a thrown error is caught, its toString pushed onto errors and
persisted with type error when snippetId is truthy.  No part of the wrapper
consults the engine deadline. -/
def fireTimer (sid : Option Int) (st : Capture × List EntryRecord)
    (tr : TimerReq) : Capture × List EntryRecord :=
  let st1 := runConsoleFrom sid st tr.body.calls
  match tr.body.throwsMsg with
  | none => st1
  | some msg =>
    ({ st1.1 with errors := st1.1.errors ++ [msg] }, st1.2 ++ persistOf sid "error" msg)

/-- The entries a callback body pushes onto the logs array. -/
def timerLogOutput (b : TimerBody) : List String :=
  b.calls.filterMap logRender

/-- The entries a callback body pushes onto the errors array, including the
caught-throw rendering. -/
def timerErrorOutput (b : TimerBody) : List String :=
  b.calls.filterMap errorRender ++
    (match b.throwsMsg with
     | some msg => [msg]
     | none => [])

/-- The persistence payloads a callback body produces. -/
def timerPersistOutput (sid : Option Int) (b : TimerBody) : List EntryRecord :=
  b.calls.flatMap (persistCallOf sid) ++
    (match b.throwsMsg with
     | some msg => persistOf sid "error" msg
     | none => [])

/- ## Challenge validation (part_011 lines 1486 to 1620) -/

/-- One declarative test case of a challenge: an input value and an expected
value, both parsed from the stored testCases JSON. -/
structure TestCase where
  input : JSVal
  expected : JSVal

/-- The error recorded in a test result when the candidate run throws
(part_011 lines 1587 to 1592). -/
structure ValErr where
  name : String
  message : String
deriving DecidableEq, Repr

/-- One entry of the results list the validation route returns. -/
structure TestResult where
  pass : Bool
  input : JSVal
  expected : JSVal
  actual : JSVal
  error : Option ValErr

/-- One step of the challenge sandbox console shim (part_011 lines 1519 to
1534): log and error push rendered content onto their arrays; warn, info and
table are no-ops. -/
def chalShimStep (st : List String × List String) :
    ConsoleCall → List String × List String
  | .log args => (st.1 ++ [renderArgs args], st.2)
  | .error args => (st.1, st.2 ++ [renderArgs args])
  | .warn _ => st
  | .info _ => st
  | .table _ => st

/-- Observable behavior of the candidate source inside the challenge
sandbox: its console calls in order and the vm2.run outcome.  The sandbox is
rebuilt identically for every test case and the same source is run, so a
deterministic candidate has one such behavior for the whole validation. -/
structure CandidateBehavior where
  calls : List ConsoleCall
  outcome : Except JsError JSVal

/-- The logs array captured during one candidate run. -/
def chalCapturedLogs (b : CandidateBehavior) : List String :=
  (b.calls.foldl chalShimStep ([], [])).1

/-- Translation of the per-test-case body of the validation loop (part_011
lines 1513 to 1593): on a throw the result keeps pass false, actual null and
records the error with fallbacks; otherwise the last captured log entry, if
any, or else the returned value becomes actual, and pass compares the
compact JSON serializations of the chosen value and the expected value for
string equality. -/
def runTestCase (b : CandidateBehavior) (tc : TestCase) : TestResult :=
  let logs := chalCapturedLogs b
  match b.outcome with
  | .error e =>
    { pass := false, input := tc.input, expected := tc.expected, actual := .null,
      error := some ⟨if e.name == "" then "Error" else e.name,
                     if e.message == "" then "Unknown error" else e.message⟩ }
  | .ok result =>
    match logs.getLast? with
    | some lastLog =>
      { pass := jsonStrC (.str lastLog) == jsonStrC tc.expected,
        input := tc.input, expected := tc.expected,
        actual := .str lastLog, error := none }
    | none =>
      { pass := jsonStrC result == jsonStrC tc.expected,
        input := tc.input, expected := tc.expected,
        actual := result, error := none }

/-- Modelled from the claim wording: the value compared against expected is
the last captured log entry if any log entries were emitted, otherwise the
return value of the run. -/
def specActual (logs : List String) (returned : JSVal) : JSVal :=
  match logs.getLast? with
  | some l => .str l
  | none => returned

/-- The JSON body of the validation route. -/
structure ValidateResponse where
  success : Bool
  results : List TestResult
  message : String

/-- The record handed to createOrUpdateChallengeProgress on full success
(part_011 lines 1602 to 1608). -/
structure ProgressWrite where
  challengeId : Int
  userCode : String
  completed : Bool

/-- The validation loop and its aggregation (part_011 lines 1509 to 1614):
run every test case against the candidate behavior, collect results in
order, conjoin pass flags into allPassed, perform the single progress write
exactly on full success, and answer with the aggregate. -/
def validateEndpoint (cid : Int) (code : String) (b : CandidateBehavior)
    (tcs : List TestCase) : ValidateResponse × List ProgressWrite :=
  let folded := tcs.foldl
    (fun acc tc =>
      let r := runTestCase b tc
      (acc.1 ++ [r], acc.2 && r.pass))
    (([] : List TestResult), true)
  ({ success := folded.2,
     results := folded.1,
     message := if folded.2 then "All tests passed!" else "Some tests failed." },
   if folded.2 then [⟨cid, code, true⟩] else [])

/-- A minimal concrete script behavior used by witness instantiations: no
console calls, evaluation produces null. -/
def sampleRun : ScriptRun := ⟨[], .value .null⟩

/- ## Helper lemmas -/

/-- Unfolding one console call of a run. -/
theorem runConsoleFrom_cons (sid : Option Int) (st : Capture × List EntryRecord)
    (c : ConsoleCall) (cs : List ConsoleCall) :
    runConsoleFrom sid st (c :: cs) = runConsoleFrom sid (shimStep sid st c) cs := rfl

/-- Characterization of the console shim fold: each capture array collects
exactly the rendered contents of its calls in order, and the persistence
payloads are the concatenated per-call payloads in order. -/
theorem runConsoleFrom_spec (sid : Option Int) (calls : List ConsoleCall) :
    ∀ (cap : Capture) (rows : List EntryRecord),
    runConsoleFrom sid (cap, rows) calls =
      ({ logs := cap.logs ++ calls.filterMap logRender,
         errors := cap.errors ++ calls.filterMap errorRender,
         warnings := cap.warnings ++ calls.filterMap warnRender,
         infos := cap.infos ++ calls.filterMap infoRender },
       rows ++ calls.flatMap (persistCallOf sid)) := by
  induction calls with
  | nil => intro cap rows; simp [runConsoleFrom]
  | cons c cs ih =>
    intro cap rows
    rw [runConsoleFrom_cons]
    cases c <;>
      simp [shimStep, logRender, errorRender, warnRender, infoRender, persistCallOf, ih]

/-- Every console call contributes exactly one entry to exactly one of the
four classification selectors. -/
theorem render_partition (calls : List ConsoleCall) :
    (calls.filterMap logRender).length + (calls.filterMap warnRender).length +
    (calls.filterMap errorRender).length + (calls.filterMap infoRender).length =
      calls.length := by
  induction calls with
  | nil => rfl
  | cons c cs ih =>
    cases c <;> simp [logRender, warnRender, errorRender, infoRender] <;> omega

/-- The foldl of the validation loop collects the per-case results in order
and conjoins their pass flags. -/
theorem validate_foldl_spec (b : CandidateBehavior) (tcs : List TestCase) :
    ∀ (acc : List TestResult) (flag : Bool),
    tcs.foldl
      (fun acc tc =>
        let r := runTestCase b tc
        (acc.1 ++ [r], acc.2 && r.pass)) (acc, flag) =
    (acc ++ tcs.map (runTestCase b),
     flag && (tcs.map (runTestCase b)).all (fun r => r.pass)) := by
  induction tcs with
  | nil => intro acc flag; simp
  | cons tc tcs ih => intro acc flag; simp [ih, Bool.and_assoc]

/-- A console call with an absent snippetId persists nothing. -/
theorem persistCallOf_none (c : ConsoleCall) : persistCallOf none c = [] := by
  cases c <;> rfl

/-- Every persisted row of a guarded createConsoleEntry call carries the
snippetId of the request. -/
theorem persistOf_mem_sid (n : Int) (ty content : String) (r : EntryRecord)
    (hr : r ∈ persistOf (some n) ty content) : r.snippetId = n := by
  by_cases h : (n != 0) = true
  · simp [persistOf, h] at hr
    rw [hr]
  · simp [persistOf, h] at hr

/-- Every row persisted by a console call carries the request snippetId. -/
theorem persistCallOf_mem_sid (n : Int) (c : ConsoleCall) (r : EntryRecord)
    (hr : r ∈ persistCallOf (some n) c) : r.snippetId = n := by
  cases c <;> exact persistOf_mem_sid n _ _ r hr

/-- With an absent snippetId the whole run persists nothing. -/
theorem flatMap_persist_none (calls : List ConsoleCall) :
    calls.flatMap (persistCallOf none) = [] := by
  induction calls with
  | nil => rfl
  | cons c cs ih => simp [List.flatMap_cons, persistCallOf_none, ih]

/-- The run-completed and run-failed records are also suppressed for an
absent snippetId. -/
theorem postRunPayload_none (elapsed : Nat) (o : Vm2Outcome) :
    postRunPayload none elapsed o = [] := by
  cases o <;> rfl

/-- Rows persisted during the run all carry the request snippetId. -/
theorem runConsole_payload_sid (n : Int) (calls : List ConsoleCall) (r : EntryRecord)
    (hr : r ∈ (runConsole (some n) calls).2) : r.snippetId = n := by
  unfold runConsole at hr
  rw [runConsoleFrom_spec (some n) calls Capture.init []] at hr
  simp only [List.nil_append] at hr
  rw [List.mem_flatMap] at hr
  obtain ⟨c, _, hc⟩ := hr
  exact persistCallOf_mem_sid n c r hc

/-- The post-run record carries the request snippetId. -/
theorem postRunPayload_mem_sid (n : Int) (elapsed : Nat) (o : Vm2Outcome)
    (r : EntryRecord) (hr : r ∈ postRunPayload (some n) elapsed o) :
    r.snippetId = n := by
  cases o <;> exact persistOf_mem_sid n _ _ r hr

/-- After a clear for snippetId n, no row for n remains. -/
theorem clearFor_filter_self (n : Int) (db : List EntryRecord) :
    (clearFor n db).filter (fun r => r.snippetId == n) = [] := by
  induction db with
  | nil => rfl
  | cons r rs ih =>
    unfold clearFor at ih ⊢
    cases h : (r.snippetId == n) <;>
      simp [List.filter_cons, h, ih, -List.filter_filter]

/-- A clear for snippetId n leaves the rows of every other snippet alone. -/
theorem clearFor_filter_other (n m : Int) (hm : m ≠ n) (db : List EntryRecord) :
    (clearFor n db).filter (fun r => r.snippetId == m) =
      db.filter (fun r => r.snippetId == m) := by
  induction db with
  | nil => rfl
  | cons r rs ih =>
    unfold clearFor at ih ⊢
    by_cases h : r.snippetId = n
    · have h1 : (r.snippetId == n) = true := beq_iff_eq.mpr h
      have hne : (r.snippetId == m) = false := by
        rw [h]
        exact beq_eq_false_iff_ne.mpr (fun hc => hm hc.symm)
      simp [List.filter_cons, h1, hne, ih, -List.filter_filter]
    · have h1 : (r.snippetId == n) = false := beq_eq_false_iff_ne.mpr h
      simp [List.filter_cons, h1, ih, -List.filter_filter]

/-- Filtering for n keeps a list whose rows all carry n. -/
theorem filter_sid_all (n : Int) (l : List EntryRecord)
    (h : ∀ r ∈ l, r.snippetId = n) :
    l.filter (fun r => r.snippetId == n) = l := by
  induction l with
  | nil => rfl
  | cons r rs ih =>
    have h1 : r.snippetId = n := h r (List.mem_cons_self r rs)
    simp [h1, ih (fun x hx => h x (List.mem_cons_of_mem r hx))]

/-- Filtering for a different snippet drops a list whose rows all carry n. -/
theorem filter_sid_none (n m : Int) (hm : m ≠ n) (l : List EntryRecord)
    (h : ∀ r ∈ l, r.snippetId = n) :
    l.filter (fun r => r.snippetId == m) = [] := by
  induction l with
  | nil => rfl
  | cons r rs ih =>
    have h1 : r.snippetId = n := h r (List.mem_cons_self r rs)
    have hne : (r.snippetId == m) = false := by
      rw [h1]
      exact beq_eq_false_iff_ne.mpr (fun hc => hm hc.symm)
    simp [hne, ih (fun x hx => h x (List.mem_cons_of_mem r hx))]

/-- A run with absent snippetId persists nothing. -/
theorem runConsole_none_payload (calls : List ConsoleCall) :
    (runConsole none calls).2 = [] := by
  unfold runConsole
  rw [runConsoleFrom_spec none calls Capture.init []]
  simp [flatMap_persist_none]

/-- SnippetId zero is falsy, so a console call persists nothing. -/
theorem persistCallOf_zero (c : ConsoleCall) : persistCallOf (some 0) c = [] := by
  cases c <;> rfl

/-- SnippetId zero suppresses all run persistence. -/
theorem flatMap_persist_zero (calls : List ConsoleCall) :
    calls.flatMap (persistCallOf (some 0)) = [] := by
  induction calls with
  | nil => rfl
  | cons c cs ih => simp [List.flatMap_cons, persistCallOf_zero, ih]

/-- A run with snippetId zero persists nothing. -/
theorem runConsole_zero_payload (calls : List ConsoleCall) :
    (runConsole (some 0) calls).2 = [] := by
  unfold runConsole
  rw [runConsoleFrom_spec (some 0) calls Capture.init []]
  simp [flatMap_persist_zero]

/-- SnippetId zero suppresses the post-run record too. -/
theorem postRunPayload_zero (elapsed : Nat) (o : Vm2Outcome) :
    postRunPayload (some 0) elapsed o = [] := by
  cases o <;> rfl

/- ## Claim theorems -/

/-- C1, counterexample.  A timer callback scheduled at instant 1 with a
requested 6000ms delay fires at 5001, after the 5000ms engine deadline of a
run started at 0; the claim says it must be discarded with nothing appended,
but the shim hands it to the host timer unconditionally, its console.log
entry lands in the logs array, and with the truthy snippetId 7 the entry
also reaches the persistence payload. -/
theorem timer_after_deadline_cex :
    engineTimeoutMs < fireAt ⟨1, 6000, ⟨[ConsoleCall.log [JSVal.str "late"]], none⟩⟩ ∧
    (fireTimer (some 7) (Capture.init, [])
        ⟨1, 6000, ⟨[ConsoleCall.log [JSVal.str "late"]], none⟩⟩).2 =
      [⟨7, "log", "late"⟩] ∧
    (fireTimer (some 7) (Capture.init, [])
        ⟨1, 6000, ⟨[ConsoleCall.log [JSVal.str "late"]], none⟩⟩).1.logs = ["late"] := by
  refine ⟨by decide, by decide, by decide⟩

/-- C1, amended.  A timer callback whose firing time (schedule instant plus
the delay clamped to 5000ms) falls after the run deadline is nevertheless
executed when the host timer fires: its console output is appended to the
capture arrays, a thrown error is appended to errors, and with a truthy
snippetId the produced entries reach the persistence collaborator.  The
entries are absent from the ExecutionResult only because the response is
serialized when the run ends, before the callback fires. -/
theorem timer_after_deadline_executes (sid : Option Int)
    (st : Capture × List EntryRecord) (tr : TimerReq)
    (_h : engineTimeoutMs < fireAt tr) :
    ((fireTimer sid st tr).1.logs = st.1.logs ++ timerLogOutput tr.body) ∧
    ((fireTimer sid st tr).1.errors = st.1.errors ++ timerErrorOutput tr.body) ∧
    ((fireTimer sid st tr).2 = st.2 ++ timerPersistOutput sid tr.body) := by
  obtain ⟨cap, rows⟩ := st
  unfold fireTimer timerLogOutput timerErrorOutput timerPersistOutput
  rw [runConsoleFrom_spec sid tr.body.calls cap rows]
  cases hb : tr.body.throwsMsg <;> simp [hb, List.append_assoc]

/-- C1, witness: a callback that fires at 5002, after the deadline, and
throws; the amended theorem applies and its hypothesis holds there. -/
theorem timer_after_deadline_executes_witness :
    engineTimeoutMs < fireAt ⟨2, 9999, ⟨[], some "Error: boom"⟩⟩ ∧
    (((fireTimer (some 2) (Capture.init, []) ⟨2, 9999, ⟨[], some "Error: boom"⟩⟩).1.logs =
        (Capture.init, ([] : List EntryRecord)).1.logs ++
          timerLogOutput ⟨[], some "Error: boom"⟩) ∧
     ((fireTimer (some 2) (Capture.init, []) ⟨2, 9999, ⟨[], some "Error: boom"⟩⟩).1.errors =
        (Capture.init, ([] : List EntryRecord)).1.errors ++
          timerErrorOutput ⟨[], some "Error: boom"⟩) ∧
     ((fireTimer (some 2) (Capture.init, []) ⟨2, 9999, ⟨[], some "Error: boom"⟩⟩).2 =
        (Capture.init, ([] : List EntryRecord)).2 ++
          timerPersistOutput (some 2) ⟨[], some "Error: boom"⟩)) :=
  ⟨by decide,
   timer_after_deadline_executes (some 2) (Capture.init, [])
     ⟨2, 9999, ⟨[], some "Error: boom"⟩⟩ (by decide)⟩

/-- C2, counterexample.  The effects of a run whose vm2 exception came from
the deadline are identical to the effects of a run where the sandboxed
script threw an error object with the same fields, and the reported error
name is the generic Error, not a distinct TimeoutFault kind: nothing in the
ExecutionResult lets a caller tell a timeout from a generic runtime fault. -/
theorem timeout_merged_cex :
    (executeCore (some 7)
        ⟨[], .thrown true ⟨"Error", "Script execution timed out after 5000ms", none⟩⟩
        [] 5000 sbOk =
      executeCore (some 7)
        ⟨[], .thrown false ⟨"Error", "Script execution timed out after 5000ms", none⟩⟩
        [] 5000 sbOk) ∧
    ((executeCore (some 7)
        ⟨[], .thrown true ⟨"Error", "Script execution timed out after 5000ms", none⟩⟩
        [] 5000 sbOk).resp.error =
      some ⟨"Error", "Script execution timed out after 5000ms", none⟩) ∧
    "Error" ≠ "TimeoutFault" :=
  ⟨rfl, rfl, by decide⟩

/-- C2, amended.  A run whose evaluation exceeds the wall-clock ceiling
surfaces the vm2 exception through the single generic catch mapping used
for every runtime error: the response carries thrownError with the raw
name, message and stack of the exception (with fallbacks for falsy fields),
result is null, and the whole effects are independent of whether the
exception came from the deadline; no distinct timeout kind exists. -/
theorem timeout_generic_error_mapping (sid : Option Int) (tm tm' : Bool) (e : JsError)
    (calls : List ConsoleCall) (db : List EntryRecord) (elapsed : Nat)
    (sb : StorageBehavior) :
    (executeCore sid ⟨calls, .thrown tm e⟩ db elapsed sb =
      executeCore sid ⟨calls, .thrown tm' e⟩ db elapsed sb) ∧
    ((executeCore sid ⟨calls, .thrown tm e⟩ db elapsed sb).resp.error =
      some (buildErrObj e)) ∧
    ((executeCore sid ⟨calls, .thrown tm e⟩ db elapsed sb).resp.result = JSVal.null) :=
  ⟨rfl, rfl, rfl⟩

/-- C3.  The execute route rejects exactly the requests whose code field is
not a string, and for every string request it produces a response body; the
body is unchanged under every failure behavior of the persistence
collaborator: clearConsoleEntries swallows its own database error and
returns false, and the createConsoleEntry promises are never awaited, so
neither failing call aborts or alters the execution result. -/
theorem execute_response_total_and_storage_isolated (code : JSVal) (sid : Option Int)
    (run : ScriptRun) (db : List EntryRecord) (elapsed : Nat)
    (sb sbAlt : StorageBehavior) :
    ((executeHandler code sid run db elapsed sb).isBad = !code.isString) ∧
    ((executeHandler code sid run db elapsed sb).response.isSome = code.isString) ∧
    ((executeHandler code sid run db elapsed sb).response =
      (executeHandler code sid run db elapsed sbAlt).response) := by
  cases code <;>
    simp [executeHandler, HandlerResult.isBad, HandlerResult.response, JSVal.isString,
      executeCore]

/-- C4.  For a run whose script invokes the console shim exactly N times,
each of the four capture arrays is exactly the ordered rendering of its own
calls (console.table entries land in logs), and the lengths of the four
arrays sum to N. -/
theorem console_capture_count_and_order (sid : Option Int) (calls : List ConsoleCall) :
    ((runConsole sid calls).1.logs = calls.filterMap logRender) ∧
    ((runConsole sid calls).1.errors = calls.filterMap errorRender) ∧
    ((runConsole sid calls).1.warnings = calls.filterMap warnRender) ∧
    ((runConsole sid calls).1.infos = calls.filterMap infoRender) ∧
    ((runConsole sid calls).1.logs.length + (runConsole sid calls).1.warnings.length +
      (runConsole sid calls).1.errors.length + (runConsole sid calls).1.infos.length =
      calls.length) := by
  have h := runConsoleFrom_spec sid calls Capture.init []
  unfold runConsole
  rw [h]
  simp [Capture.init, render_partition]

/-- C5.  In every execute response, a non-null error field forces a null
result field, and a run that evaluates to undefined is reported with a null
result field. -/
theorem result_error_mutual_exclusion (sid : Option Int) (run : ScriptRun)
    (db : List EntryRecord) (elapsed : Nat) (sb : StorageBehavior) :
    (((executeCore sid run db elapsed sb).resp.error.isSome = true) →
      (executeCore sid run db elapsed sb).resp.result = JSVal.null) ∧
    ((run.outcome = Vm2Outcome.value JSVal.undef) →
      (executeCore sid run db elapsed sb).resp.result = JSVal.null) := by
  constructor
  · intro hh
    cases h : run.outcome with
    | value v => simp [executeCore, errorOf, h] at hh
    | thrown tm e => simp [executeCore, resultOf, h]
  · intro hh
    simp [executeCore, hh, resultOf]

/-- C5, witness: a throwing run satisfies the first hypothesis, an
undefined-valued run the second; both give a null result field. -/
theorem result_error_mutual_exclusion_witness :
    ((executeCore none ⟨[], .thrown false ⟨"Error", "boom", none⟩⟩ [] 0 sbOk).resp.error.isSome
        = true ∧
     (executeCore none ⟨[], .thrown false ⟨"Error", "boom", none⟩⟩ [] 0 sbOk).resp.result
        = JSVal.null) ∧
    ((⟨[], .value JSVal.undef⟩ : ScriptRun).outcome = Vm2Outcome.value JSVal.undef ∧
     (executeCore none ⟨[], .value JSVal.undef⟩ [] 0 sbOk).resp.result = JSVal.null) :=
  ⟨⟨rfl,
    (result_error_mutual_exclusion none ⟨[], .thrown false ⟨"Error", "boom", none⟩⟩
      [] 0 sbOk).1 rfl⟩,
   ⟨rfl,
    (result_error_mutual_exclusion none ⟨[], .value JSVal.undef⟩ [] 0 sbOk).2 rfl⟩⟩

/-- C6, counterexample.  The normalizer does not leave lines untouched nor
merely append a terminator: it first trims each line.  The line consisting
of a space then x becomes x with a semicolon, not the original line or the
original line plus a semicolon; and the blank line consisting of one space,
which the claim says is left untouched, comes back empty. -/
theorem normalizer_trims_lines_cex :
    normalizeCode " x" = "x;" ∧ normalizeCode " x" ≠ " x" ∧ normalizeCode " x" ≠ " x;" ∧
    normalizeCode " " = "" ∧ normalizeCode " " ≠ " " := by
  refine ⟨by decide, by decide, by decide, by decide, by decide⟩

/-- C6, amended.  The normalizer operates on each physical line
independently after trimming surrounding whitespace: the trimmed line is
kept as is when it is blank, starts a line or block comment, or already ends
with a block-comment close or one of the terminators semicolon, open brace,
close brace, colon or comma; otherwise a semicolon is appended to the
trimmed line.  Every output line is the trimmed input line or that line
plus a semicolon. -/
theorem normalizer_per_trimmed_line (code : String) :
    (normalizeCode code =
      joinWith "\n" ((jsSplitLines code).map
        (fun l => if specSafeTrimmed (jsTrim l) then jsTrim l else jsTrim l ++ ";"))) ∧
    ∀ line : String,
      normalizeLine line = jsTrim line ∨ normalizeLine line = jsTrim line ++ ";" := by
  constructor
  · rfl
  · intro line
    show (if specSafeTrimmed (jsTrim line) then jsTrim line else jsTrim line ++ ";") =
        jsTrim line ∨ _
    by_cases h : specSafeTrimmed (jsTrim line) = true
    · left
      simp [h]
    · right
      show (if specSafeTrimmed (jsTrim line) then jsTrim line else jsTrim line ++ ";") =
        jsTrim line ++ ";"
      simp [h]

/-- C7.  For every test case: when the candidate run throws, pass is false
and the error is recorded in the result; otherwise the actual value is the
last captured log entry if any log entries were emitted, else the returned
value, and pass holds exactly when the compact JSON serializations of the
actual and expected values are equal as strings. -/
theorem testcase_pass_by_serialized_equality (b : CandidateBehavior) (tc : TestCase) :
    match b.outcome with
    | .error _ =>
        (runTestCase b tc).pass = false ∧ (runTestCase b tc).error.isSome = true
    | .ok v =>
        (runTestCase b tc).actual = specActual (chalCapturedLogs b) v ∧
        (runTestCase b tc).pass =
          (jsonStrC (runTestCase b tc).actual == jsonStrC tc.expected) ∧
        (runTestCase b tc).error = none := by
  cases hb : b.outcome with
  | error e => simp [runTestCase, hb]
  | ok v =>
    cases hl : (chalCapturedLogs b).getLast? <;>
      simp [runTestCase, hb, hl, specActual]

/-- C8.  The validation route reports success exactly when every test
result passes, and it performs the completion-recording write exactly on
full success: the write list is the single progress record when all passed
and empty otherwise. -/
theorem challenge_success_iff_all_pass (cid : Int) (code : String)
    (b : CandidateBehavior) (tcs : List TestCase) :
    ((validateEndpoint cid code b tcs).1.success =
      (validateEndpoint cid code b tcs).1.results.all (fun r => r.pass)) ∧
    ((validateEndpoint cid code b tcs).2 =
      if (validateEndpoint cid code b tcs).1.results.all (fun r => r.pass)
      then [⟨cid, code, true⟩] else []) := by
  unfold validateEndpoint
  rw [validate_foldl_spec]
  simp

/-- C9.  The validation loop never passes the test-case input into the
sandbox or the evaluated source: for one candidate behavior, the actual
value of the produced test result is the same whatever the test case, so
varying only the input leaves actual unchanged. -/
theorem testcase_actual_independent_of_input (b : CandidateBehavior)
    (tc1 tc2 : TestCase) :
    (runTestCase b tc1).actual = (runTestCase b tc2).actual := by
  cases hb : b.outcome <;> cases hl : (chalCapturedLogs b).getLast? <;>
    simp [runTestCase, hb, hl]

/-- C10.  With a truthy snippetId n the route first issues the clear for n
and then the appends of this run, the rows stored for n afterwards are
exactly the entries of this run in order, and rows of every other snippet
are untouched; with an absent or zero snippetId no persistence call is made
and the stored rows are unchanged. -/
theorem persistence_clear_scoped_to_snippet (run : ScriptRun) (db : List EntryRecord)
    (elapsed : Nat) (n m : Int) (hn : n ≠ 0) (hm : m ≠ n) :
    ((executeCore (some n) run db elapsed sbOk).trace =
      StorageCall.clear n ::
        ((runConsole (some n) run.calls).2 ++
          postRunPayload (some n) elapsed run.outcome).map StorageCall.append) ∧
    ((executeCore (some n) run db elapsed sbOk).db.filter (fun r => r.snippetId == n) =
      (runConsole (some n) run.calls).2 ++ postRunPayload (some n) elapsed run.outcome) ∧
    ((executeCore (some n) run db elapsed sbOk).db.filter (fun r => r.snippetId == m) =
      db.filter (fun r => r.snippetId == m)) ∧
    ((executeCore none run db elapsed sbOk).db = db ∧
     (executeCore none run db elapsed sbOk).trace = []) ∧
    ((executeCore (some 0) run db elapsed sbOk).db = db ∧
     (executeCore (some 0) run db elapsed sbOk).trace = []) := by
  have hbn : (n != 0) = true := bne_iff_ne.mpr hn
  have hdb : (executeCore (some n) run db elapsed sbOk).db =
      clearFor n db ++
        ((runConsole (some n) run.calls).2 ++
          postRunPayload (some n) elapsed run.outcome) := by
    simp [executeCore, sbOk, hbn]
  have hall : ∀ r ∈ (runConsole (some n) run.calls).2 ++
      postRunPayload (some n) elapsed run.outcome, r.snippetId = n := by
    intro r hr
    rcases List.mem_append.mp hr with h | h
    · exact runConsole_payload_sid n run.calls r h
    · exact postRunPayload_mem_sid n elapsed run.outcome r h
  refine ⟨?_, ?_, ?_, ?_, ?_⟩
  · simp [executeCore, sbOk, hbn]
  · rw [hdb, List.filter_append, clearFor_filter_self, filter_sid_all n _ hall]
    simp
  · rw [hdb, List.filter_append, clearFor_filter_other n m hm,
      filter_sid_none n m hm _ hall]
    simp
  · constructor <;> simp [executeCore, sbOk, runConsole_none_payload, postRunPayload_none]
  · constructor <;> simp [executeCore, sbOk, runConsole_zero_payload, postRunPayload_zero]

/-- C10, witness: snippetId 7 and other snippet 3 with an empty prior
store; both hypotheses hold and the theorem applies. -/
theorem persistence_clear_scoped_to_snippet_witness :
    (7 : Int) ≠ 0 ∧ (3 : Int) ≠ 7 ∧
    (((executeCore (some 7) sampleRun [] 0 sbOk).trace =
        StorageCall.clear 7 ::
          ((runConsole (some 7) sampleRun.calls).2 ++
            postRunPayload (some 7) 0 sampleRun.outcome).map StorageCall.append) ∧
     ((executeCore (some 7) sampleRun [] 0 sbOk).db.filter (fun r => r.snippetId == 7) =
        (runConsole (some 7) sampleRun.calls).2 ++
          postRunPayload (some 7) 0 sampleRun.outcome) ∧
     ((executeCore (some 7) sampleRun [] 0 sbOk).db.filter (fun r => r.snippetId == 3) =
        List.filter (fun r => r.snippetId == 3) []) ∧
     ((executeCore none sampleRun [] 0 sbOk).db = [] ∧
      (executeCore none sampleRun [] 0 sbOk).trace = []) ∧
     ((executeCore (some 0) sampleRun [] 0 sbOk).db = [] ∧
      (executeCore (some 0) sampleRun [] 0 sbOk).trace = [])) :=
  ⟨by decide, by decide,
   persistence_clear_scoped_to_snippet sampleRun [] 0 7 3 (by decide) (by decide)⟩
